import Mathlib

/-!
Verification of the tool-orchestration loop and the structured query
translator of the open-aiagent-mcp repository.

The Python sources are embedded shallowly:

* `src/tools/postgres_tool.py` (class `PostgresDBTool`) becomes a family of
  pure functions over an explicit relational store `Db`.  Each method
  `_create_table`, `_add_column`, `_drop_column`, `_insert`, `_select`,
  `_aggregate`, `_group_by`, `_list_tables` is a Lean definition in the
  namespace `PostgresDBTool`.  SQLAlchemy reflection and statement execution
  are modelled as reads of the `Db` value; for `_aggregate` the database
  round trips are additionally recorded in an explicit effect trace, because
  one claim is about which store accesses happen before a failure.
* `src/agent_tools/spec.py` (class `ToolSpec` and the module-level registry)
  becomes `ToolSpecE` / `registerTool` / `validateArgs`.
* `src/agents/langgraph_agent.py` (`_dispatch_tool`, `tool_node`, `_route`,
  the compiled graph loop and class `LangGraphAgent`) becomes `dispatchTool`,
  `toolNode`, `route`, `runAgentLoop` and `LangGraphAgentE`.

Python dynamic values are modelled with explicit `Option` fields for
`dict.get` accesses, and Python truthiness of strings / collections is
modelled by the `pyOr*` helpers.  Machine floats do not occur: SQL numeric
results are modelled with `Int` and `Rat`, and the Python `round(x, 2)`
used by `_group_by` is modelled as round-half-to-even on rationals.
-/

/-- Cell values stored in the relational model.  Integers and rationals
stand for SQL integer / numeric results, `null` for SQL NULL. -/
inductive Value where
  | int (n : Int)
  | rat (q : Rat)
  | str (s : String)
  | bool (b : Bool)
  | null
deriving DecidableEq, Repr

/-- SQL equality used in WHERE clauses: comparisons against NULL are never
true (so a NULL cell never matches an equality filter). -/
def sqlEq (a b : Value) : Bool :=
  match a, b with
  | .null, _ => false
  | _, .null => false
  | a, b => a == b

/-- Python `a or b` for an optional string, where the empty string is falsy
(models `payload.get(k) or payload.get(k2)`). -/
def pyOrOptS (a b : Option String) : Option String :=
  match a with
  | some s => if s = "" then b else some s
  | none => b

/-- Python `a or b` where `b` is a plain string default. -/
def pyOrStr (a : Option String) (b : String) : String :=
  match a with
  | some s => if s = "" then b else s
  | none => b

/-- Python `str.lower()` (character-wise lowering). -/
def pyLower (s : String) : String := ⟨s.data.map Char.toLower⟩

/-- Errors raised by the query translator.  `tableNotFound` models the
RuntimeError raised by `_get_table` (and the driver error for ALTER on a
missing table), `noSuchColumn` the KeyError raised by `tbl.c[name]`,
`valueError` a Python ValueError, `attrError` the AttributeError hit when a
column spec carries neither a type nor a data_type field. -/
inductive DbErr where
  | tableNotFound (table : String)
  | noSuchColumn (column : String)
  | valueError (msg : String)
  | attrError (msg : String)
deriving DecidableEq, Repr

/-- The closed column-type vocabulary, the codomain of `_TYPE_MAP`. -/
inductive SaType where
  | integer
  | text
  | varchar
  | float
  | boolean
  | datetime
  | date
deriving DecidableEq, Repr

/-- Embedding of `_sa_type`: lowercase the requested name and look it up in
the fixed alias table, failing with a ValueError on unknown names. -/
def saType (typeName : String) : Except DbErr SaType :=
  match pyLower typeName with
  | "integer" => .ok .integer
  | "int" => .ok .integer
  | "text" => .ok .text
  | "string" => .ok .varchar
  | "varchar" => .ok .varchar
  | "float" => .ok .float
  | "double" => .ok .float
  | "boolean" => .ok .boolean
  | "bool" => .ok .boolean
  | "datetime" => .ok .datetime
  | "timestamp" => .ok .datetime
  | "date" => .ok .date
  | _ => .error (.valueError ("Unsupported column type " ++ typeName))

/-- One column of a live table, as constructed by `_create_table` /
`_add_column` (name, SQLAlchemy type, primary_key and nullable kwargs,
optional default). -/
structure ColumnDef where
  name : String
  type_ : SaType
  primaryKey : Bool
  nullable : Bool
  default : Option Value
deriving DecidableEq, Repr

/-- SQLAlchemy marks an Integer primary-key column as auto-increment by
default (rendered SERIAL on PostgreSQL); this mirrors that rule. -/
def ColumnDef.autoIncrement (c : ColumnDef) : Bool :=
  c.primaryKey && c.type_ == .integer

/-- A stored row: one value per column, keyed by column name. -/
abbrev Row := List (String × Value)

/-- Live state of one table: its columns, its rows, and the next value of
the auto-increment sequence. -/
structure TableState where
  cols : List ColumnDef
  rows : List Row
  nextId : Int
deriving DecidableEq, Repr

/-- The relational store: tables in creation order, keyed by name. -/
structure Db where
  tables : List (String × TableState)
deriving DecidableEq, Repr

/-- Look a table up by name (models schema reflection finding the table). -/
def Db.find? (db : Db) (t : String) : Option TableState :=
  (db.tables.find? (fun p => p.1 == t)).map (·.2)

/-- Replace the state of an existing table. -/
def Db.replace (db : Db) (t : String) (ts : TableState) : Db :=
  ⟨db.tables.map (fun p => if p.1 == t then (p.1, ts) else p)⟩

/-- One entry of a `columns` list in a `create_table` payload, with every
`dict.get` access modelled as an `Option` field. -/
structure ColSpecPayload where
  name : String
  type_ : Option String
  data_type : Option String
  pk : Option Bool
  primary_key : Option Bool
  not_null : Option Bool
  nullable : Option Bool
  default : Option Value
deriving DecidableEq, Repr

/-- Build one `Column(...)` from a column spec, mirroring the loop body of
`_create_table`: the type name is `col.get("type") or col.get("data_type")`
(AttributeError when both are missing, since the source calls `.lower()` on
None), primary key is `col.get("pk") or col.get("primary_key", False)`, and
nullable is `not col.get("not_null", False)` when `not_null` is present,
else `col.get("nullable", True)`. -/
def buildColumn (c : ColSpecPayload) : Except DbErr ColumnDef :=
  match pyOrOptS c.type_ c.data_type with
  | none => .error (.attrError "NoneType has no attribute lower")
  | some typeName =>
    match saType typeName with
    | .error e => .error e
    | .ok ctype =>
      let primaryKey := c.pk.getD false || c.primary_key.getD false
      let nullable :=
        match c.not_null with
        | some b => !b
        | none => c.nullable.getD true
      .ok ⟨c.name, ctype, primaryKey, nullable, c.default⟩

/-- Payload of the `create_table` action. -/
structure CreateTablePayload where
  table : String
  columns : Option (List ColSpecPayload)
deriving DecidableEq, Repr

/-- Result dict of `_create_table`. -/
structure CreateTableResult where
  created : String
  columns : List String
deriving DecidableEq, Repr

/-- The default column spec substituted when the caller gave no columns:
a single auto-increment integer primary key named id. -/
def defaultIdColumns : List ColSpecPayload :=
  [⟨"id", some "integer", none, some true, none, none, none, none⟩]

namespace PostgresDBTool

/-- Embedding of `_create_table`: substitute the default id column when no
columns were given, build each column (failing fast on a bad type name),
then `Table.create(checkfirst=True)`: create the table only when absent.
The returned `columns` list names the columns of the freshly constructed
metadata, exactly as in the source. -/
def createTable (db : Db) (p : CreateTablePayload) :
    Except DbErr (CreateTableResult × Db) :=
  let columns0 := p.columns.getD []
  let columns := if columns0.isEmpty then defaultIdColumns else columns0
  match columns.mapM buildColumn with
  | .error e => .error e
  | .ok cols =>
    let db' :=
      if (db.find? p.table).isSome then db
      else ⟨db.tables ++ [(p.table, ⟨cols, [], 1⟩)]⟩
    .ok (⟨p.table, cols.map (·.name)⟩, db')

end PostgresDBTool

/-- The `column` field of an `add_column` payload: either the shorthand
string form or a full column spec dict. -/
inductive ColArg where
  | shorthand (s : String)
  | spec (c : ColSpecPayload)
deriving DecidableEq, Repr

/-- Payload of the `add_column` action. -/
structure AddColumnPayload where
  table : String
  column : ColArg
  data_type : Option String
deriving DecidableEq, Repr

/-- Result dict of `_add_column`. -/
structure AddColumnResult where
  added_column : String
  table : String
deriving DecidableEq, Repr

/-- The column spec `_add_column` works on after normalising the shorthand
string form (`column="status"` plus optional `data_type`). -/
def resolveColSpec (p : AddColumnPayload) : ColSpecPayload :=
  match p.column with
  | .shorthand s => ⟨s, some (pyOrStr p.data_type "text"), none, none, none, none, none, none⟩
  | .spec c => c

/-- The type name `_add_column` hands to `_sa_type`:
`col.get("type") or col.get("data_type", "text")`. -/
def addColTypeName (p : AddColumnPayload) : String :=
  let col := resolveColSpec p
  pyOrStr col.type_ (col.data_type.getD "text")

namespace PostgresDBTool

/-- Embedding of `_add_column`: resolve the column spec, validate the type
name, then run `ALTER TABLE ... ADD COLUMN IF NOT EXISTS`: an error when the
table is missing, a no-op when the column already exists, otherwise the
column is appended and existing rows read NULL in it. -/
def addColumn (db : Db) (p : AddColumnPayload) :
    Except DbErr (AddColumnResult × Db) :=
  let col := resolveColSpec p
  match saType (addColTypeName p) with
  | .error e => .error e
  | .ok ctype =>
    match db.find? p.table with
    | none => .error (.tableNotFound p.table)
    | some ts =>
      let colName := col.name
      if ts.cols.any (fun c => c.name == colName) then
        .ok (⟨colName, p.table⟩, db)
      else
        let newCol : ColumnDef := ⟨colName, ctype, false, true, none⟩
        let ts' : TableState :=
          ⟨ts.cols ++ [newCol], ts.rows.map (· ++ [(colName, Value.null)]), ts.nextId⟩
        .ok (⟨colName, p.table⟩, db.replace p.table ts')

end PostgresDBTool

/-- Payload of the `drop_column` action. -/
structure DropColumnPayload where
  table : String
  column : String
deriving DecidableEq, Repr

/-- Result dict of `_drop_column`. -/
structure DropColumnResult where
  dropped_column : String
  table : String
deriving DecidableEq, Repr

namespace PostgresDBTool

/-- Embedding of `_drop_column`: `ALTER TABLE ... DROP COLUMN IF EXISTS`:
an error when the table is missing, otherwise the named column (when
present) is removed from the schema and from every row; a missing column is
a no-op. -/
def dropColumn (db : Db) (p : DropColumnPayload) :
    Except DbErr (DropColumnResult × Db) :=
  match db.find? p.table with
  | none => .error (.tableNotFound p.table)
  | some ts =>
    let ts' : TableState :=
      ⟨ts.cols.filter (fun c => c.name != p.column),
       ts.rows.map (fun r => r.filter (fun kv => kv.1 != p.column)),
       ts.nextId⟩
    .ok (⟨p.column, p.table⟩, db.replace p.table ts')

end PostgresDBTool

/-- The `values` field of an insert payload: a single mapping or a sequence
of mappings. -/
inductive InsertValues where
  | one (m : List (String × Value))
  | many (ms : List (List (String × Value)))
deriving DecidableEq, Repr

/-- Python truthiness of an insert `values` field (an empty dict or list is
falsy). -/
def pyTruthyIV : InsertValues → Bool
  | .one m => !m.isEmpty
  | .many ms => !ms.isEmpty

/-- Python `a or b` over optional insert values, with collection
truthiness. -/
def pyOrIV (a b : Option InsertValues) : Option InsertValues :=
  match a with
  | some v => if pyTruthyIV v then some v else b
  | none => b

/-- Payload of the `insert` action (`values` and the `data` alias). -/
structure InsertPayload where
  table : String
  values : Option InsertValues
  data : Option InsertValues
deriving DecidableEq, Repr

/-- Result dict of `_insert` (the cursor rowcount). -/
structure InsertResult where
  inserted : Nat
deriving DecidableEq, Repr

/-- The row actually stored for one inserted mapping: every table column is
present; columns named in the mapping take its value, an unfilled
auto-increment column takes the next sequence value, any other unfilled
column takes its declared default or NULL. -/
def mkInsertRow (cols : List ColumnDef) (nextId : Int) (m : List (String × Value)) : Row :=
  cols.map fun c =>
    (c.name,
      match m.lookup c.name with
      | some v => v
      | none =>
        if c.autoIncrement then Value.int nextId else c.default.getD Value.null)

/-- Whether the mapping fills every auto-increment column (if not, the
sequence advances by one for the inserted row). -/
def usesSequence (cols : List ColumnDef) (m : List (String × Value)) : Bool :=
  cols.any fun c => c.autoIncrement && (m.lookup c.name).isNone

/-- Insert one mapping into a table state; an unknown column name is the
statement-compilation error (modelled as `noSuchColumn`). -/
def insertOne (ts : TableState) (m : List (String × Value)) :
    Except DbErr TableState :=
  match m.find? (fun kv => ts.cols.all (fun c => c.name != kv.1)) with
  | some kv => .error (.noSuchColumn kv.1)
  | none =>
    let row := mkInsertRow ts.cols ts.nextId m
    .ok ⟨ts.cols, ts.rows ++ [row], if usesSequence ts.cols m then ts.nextId + 1 else ts.nextId⟩

namespace PostgresDBTool

/-- Embedding of `_insert`: reflect the table (`_get_table`), take
`payload.get("values") or payload.get("data")` (ValueError when neither is
given), then run a single- or multi-row INSERT in one committed unit of
work, returning the rowcount. -/
def insert (db : Db) (p : InsertPayload) : Except DbErr (InsertResult × Db) :=
  match db.find? p.table with
  | none => .error (.tableNotFound p.table)
  | some ts =>
    match pyOrIV p.values p.data with
    | none => .error (.valueError "insert action requires values (or data) field")
    | some (.one m) =>
      match insertOne ts m with
      | .error e => .error e
      | .ok ts' => .ok (⟨1⟩, db.replace p.table ts')
    | some (.many ms) =>
      match ms.foldlM insertOne ts with
      | .error e => .error e
      | .ok ts' => .ok (⟨ms.length⟩, db.replace p.table ts')

end PostgresDBTool

/-- Payload of the `select` / `list` action.  The source checks for the
`table` key explicitly, so it is optional here; `whereF` models
`payload.get("where") or` the empty dict. -/
structure SelectPayload where
  table : Option String
  columns : Option (List String)
  whereF : List (String × Value)
  limit : Option Int
  offset : Option Int
deriving DecidableEq, Repr

/-- Whether a stored row passes an equality-AND filter (SQL semantics: a
NULL cell never matches). -/
def rowMatches (w : List (String × Value)) (r : Row) : Bool :=
  w.all fun kv =>
    match r.lookup kv.1 with
    | some x => sqlEq x kv.2
    | none => false

/-- First filter column that is not a column of the table, if any (the
`tbl.c[col]` KeyError raised while building the statement). -/
def badWhereCol (cols : List ColumnDef) (w : List (String × Value)) :
    Option String :=
  (w.find? (fun kv => cols.all (fun c => c.name != kv.1))).map (·.1)

/-- Python `l[a : a + n]` composition used for LIMIT / OFFSET: drop the
offset, then keep at most the limit. -/
def applyLimitOffset (rows : List Row) (limit offset : Option Int) : List Row :=
  let rows := match offset with
    | some o => rows.drop o.toNat
    | none => rows
  match limit with
  | some n => rows.take n.toNat
  | none => rows

namespace PostgresDBTool

/-- Embedding of `_select`: explicit ValueError when `table` is missing,
table reflection, projection (`tbl.c[c]` KeyError on an unknown selected
column), equality-AND WHERE, then OFFSET and LIMIT, returning each row as a
mapping over the selected columns (all columns when none were named). -/
def select (db : Db) (p : SelectPayload) : Except DbErr (List Row) :=
  match p.table with
  | none => .error (.valueError "select/list action requires table field")
  | some t =>
    match db.find? t with
    | none => .error (.tableNotFound t)
    | some ts =>
      let projOk := match p.columns with
        | some cs => cs.find? (fun c => ts.cols.all (fun cd => cd.name != c))
        | none => none
      match projOk with
      | some c => .error (.noSuchColumn c)
      | none =>
        match badWhereCol ts.cols p.whereF with
        | some c => .error (.noSuchColumn c)
        | none =>
          let matched := ts.rows.filter (rowMatches p.whereF)
          let sliced := applyLimitOffset matched p.limit p.offset
          let projected := match p.columns with
            | some cs => sliced.map (fun r => cs.map (fun c => (c, (r.lookup c).getD Value.null)))
            | none => sliced
          .ok projected

end PostgresDBTool

/-- One store access made by a translator method: `reflect` is the schema
reflection query issued by `_get_table` (`Table(..., autoload_with=engine)`),
`query` the execution of the built SELECT statement. -/
inductive DbEffect where
  | reflect (table : String)
  | query
deriving DecidableEq, Repr

/-- Payload of the `aggregate` action, with the `field` / `agg` aliases. -/
structure AggregatePayload where
  table : String
  column : Option String
  field : Option String
  operation : Option String
  agg : Option String
  whereF : List (String × Value)
deriving DecidableEq, Repr

/-- Result dict of `_aggregate`. -/
structure AggregateResult where
  table : String
  operation : String
  value : Value
deriving DecidableEq, Repr

/-- The allowed aggregate operations (the keys of `agg_map`). -/
def AGG_OPS : List String := ["count", "sum", "avg", "min", "max"]

/-- Integer values of a column across a list of rows (NULL and non-integer
cells are skipped, as SQL aggregates skip NULL). -/
def intVals (c : String) (rows : List Row) : List Int :=
  rows.filterMap fun r =>
    match r.lookup c with
    | some (Value.int n) => some n
    | _ => none

/-- Value of one aggregate over the filtered rows: COUNT counts rows, the
others fold the integer column values, yielding NULL on an empty column as
SQL does; AVG is exact rational division. -/
def aggValue (agg : String) (column : Option String) (rows : List Row) : Value :=
  if agg = "count" then .int rows.length
  else
    let vs := intVals (column.getD "") rows
    match vs with
    | [] => .null
    | v :: rest =>
      if agg = "sum" then .int (vs.foldl (· + ·) 0)
      else if agg = "avg" then .rat ((vs.foldl (· + ·) 0 : Int) / (vs.length : Rat))
      else if agg = "min" then .int (rest.foldl min v)
      else .int (rest.foldl max v)

namespace PostgresDBTool

/-- Embedding of `_aggregate`, with its store accesses traced.  Exactly as
in the source, the table reflection (`_get_table`) runs first; then the
column default chain and the missing-column ValueError; then the
`tbl.c[column]` lookup; then the unknown-operation ValueError; the SELECT
is built and executed only after all of those. -/
def aggregate (db : Db) (p : AggregatePayload) :
    List DbEffect × Except DbErr AggregateResult :=
  let effs := [DbEffect.reflect p.table]
  match db.find? p.table with
  | none => (effs, .error (.tableNotFound p.table))
  | some ts =>
    let column := pyOrOptS p.column p.field
    let agg := pyLower (pyOrStr (pyOrOptS p.operation p.agg) "count")
    if column.isNone && agg != "count" then
      (effs, .error (.valueError "aggregate requires column for operations other than count"))
    else
      let colMissing := match column with
        | some c => ts.cols.all (fun cd => cd.name != c)
        | none => false
      if colMissing then
        (effs, .error (.noSuchColumn (column.getD "")))
      else if !(AGG_OPS.contains agg) then
        (effs, .error (.valueError ("Unsupported aggregate operation " ++ agg)))
      else
        match badWhereCol ts.cols p.whereF with
        | some c => (effs, .error (.noSuchColumn c))
        | none =>
          let matched := ts.rows.filter (rowMatches p.whereF)
          (effs ++ [DbEffect.query], .ok ⟨p.table, agg, aggValue agg column matched⟩)

end PostgresDBTool

/-- Payload of the `group_by` action: `top_n` models
`int(payload.get("top_n", 10))` and `percent` models
`bool(payload.get("percent", True))`. -/
structure GroupByPayload where
  table : String
  column : String
  top_n : Option Int
  percent : Option Bool
deriving DecidableEq, Repr

/-- One entry of the `rows` list returned by `_group_by`; `percent` is
present only when requested and the total is nonzero. -/
structure GroupRow where
  value : Value
  count : Nat
  percent : Option Rat
deriving DecidableEq, Repr

/-- Result dict of `_group_by`. -/
structure GroupByResult where
  table : String
  group_by : String
  rows : List GroupRow
  total : Nat
deriving DecidableEq, Repr

/-- Round a rational to the nearest integer, ties to even (the behaviour of
Python round on an exactly representable half). -/
def roundHalfEven (q : Rat) : Int :=
  let fl := ⌊q⌋
  let frac := q - fl
  if frac < 1 / 2 then fl
  else if 1 / 2 < frac then fl + 1
  else if fl % 2 = 0 then fl else fl + 1

/-- Model of Python `round(x, 2)` on the exact rational value. -/
def round2 (q : Rat) : Rat :=
  (roundHalfEven (q * 100) : Rat) / 100

/-- Increment the count of the group holding `v`, appending a fresh group
when `v` has none yet (each row feeds exactly one group, as GROUP BY does;
SQL groups NULLs together, which `Value.null` keys reproduce). -/
def bumpCount (v : Value) : List (Value × Nat) → List (Value × Nat)
  | [] => [(v, 1)]
  | (w, n) :: rest =>
    if w == v then (w, n + 1) :: rest else (w, n) :: bumpCount v rest

/-- Group counts of one column over the stored rows, in first-appearance
order. -/
def groupCounts (c : String) (rows : List Row) : List (Value × Nat) :=
  rows.foldl (fun acc r => bumpCount ((r.lookup c).getD Value.null) acc) []

/-- Descending-by-count order used for the ORDER BY count DESC sort. -/
def countDescRel (a b : Value × Nat) : Prop := b.2 ≤ a.2

instance : DecidableRel countDescRel := fun a b => inferInstanceAs (Decidable (b.2 ≤ a.2))

/-- Python slice `l[:n]`: keep the first `n` entries for nonnegative `n`,
drop the last `-n` entries for negative `n`. -/
def pySlice {α : Type} (l : List α) (n : Int) : List α :=
  if 0 ≤ n then l.take n.toNat
  else l.take (l.length - (-n).toNat)

namespace PostgresDBTool

/-- Embedding of `_group_by`: reflect the table, group and count the values
of the requested column (KeyError when it is not a column), sort the groups
by count descending, sum the counts of ALL groups into `total`, truncate
the listing to `top_n`, and attach
`percent = round(count / total * 100, 2)` to each listed group when
percentages were requested and the total is nonzero. -/
def groupBy (db : Db) (p : GroupByPayload) : Except DbErr GroupByResult :=
  match db.find? p.table with
  | none => .error (.tableNotFound p.table)
  | some ts =>
    if ts.cols.all (fun cd => cd.name != p.column) then
      .error (.noSuchColumn p.column)
    else
      let topN : Int := p.top_n.getD 10
      let includePercent := p.percent.getD true
      let groups := groupCounts p.column ts.rows
      let sorted := groups.insertionSort countDescRel
      let total := groups.foldl (fun acc g => acc + g.2) 0
      let listed := pySlice sorted topN
      let rows := listed.map fun g =>
        ⟨g.1, g.2,
          if includePercent && total != 0 then
            some (round2 ((g.2 : Rat) / (total : Rat) * 100))
          else none⟩
      .ok ⟨p.table, p.column, rows, total⟩

/-- Embedding of `_list_tables`: every table name with its row count (the
inspector enumeration plus one COUNT query per table). -/
def listTables (db : Db) : List (String × Nat) :=
  db.tables.map fun p => (p.1, p.2.rows.length)

end PostgresDBTool

/-- JSON-compatible argument and result values exchanged with tools. -/
inductive JValue where
  | str (s : String)
  | int (n : Int)
  | bool (b : Bool)
  | null
  | arr (xs : List JValue)
  | obj (kvs : List (String × JValue))

/-- Raw tool-call arguments as found on a model message: either a
JSON-encoded string or an already structured mapping. -/
inductive RawArgs where
  | str (s : String)
  | obj (m : List (String × JValue))

/-- The Python annotation of one schema field of a `ToolSpec`. -/
inductive PyType where
  | str
  | int
  | float
  | bool
  | dict
  | list
deriving DecidableEq, Repr

/-- One schema entry of a `ToolSpec`: the annotation plus the declared
default; `none` models the Ellipsis marker of a required field. -/
structure FieldSpec where
  type_ : PyType
  default : Option JValue

/-- Pydantic acceptance of a provided argument against the annotation
(coercions that the claims never exercise are elided: an integer is also
accepted where a float is annotated, as pydantic accepts it). -/
def typeMatches (t : PyType) (v : JValue) : Bool :=
  match t, v with
  | .str, .str _ => true
  | .int, .int _ => true
  | .float, .int _ => true
  | .bool, .bool _ => true
  | .dict, .obj _ => true
  | .list, .arr _ => true
  | _, _ => false

/-- Embedding of the pydantic `ArgsModel` validation built by `ToolSpec`:
each declared field is read from the raw mapping (type-checked when
present, substituted by its default when absent, an error when required
and absent); extra raw fields are ignored.  The validated mapping lists
every declared field, like `validated.dict()`. -/
def validateArgs (schema_ : List (String × FieldSpec)) (raw : List (String × JValue)) :
    Except String (List (String × JValue)) :=
  schema_.mapM fun f =>
    match raw.lookup f.1 with
    | some v =>
      if typeMatches f.2.type_ v then .ok (f.1, v)
      else .error ("validation failed for field " ++ f.1)
    | none =>
      match f.2.default with
      | some d => .ok (f.1, d)
      | none => .error ("missing required argument " ++ f.1)

/-- Declared fields with no default (the `required` list of the exported
function schema). -/
def requiredNames (schema_ : List (String × FieldSpec)) : List String :=
  (schema_.filter (fun f => f.2.default.isNone)).map (·.1)

/-- The mapping validation produces from an empty raw mapping when every
field has a default. -/
def defaultsOf (schema_ : List (String × FieldSpec)) : List (String × JValue) :=
  schema_.map fun f => (f.1, f.2.default.getD JValue.null)

/-- Errors surfaced by `_dispatch_tool` and the tool handlers: the
malformed-call ValueError, the unknown-tool ValueError, the pydantic
ValidationError, and any error the handler raised. -/
inductive ToolErr where
  | malformed
  | unknownTool (n : String)
  | validation (msg : String)
  | execution (e : DbErr)
deriving DecidableEq, Repr

/-- Embedding of a `ToolSpec` instance: name, description, declarative
schema and handler.  Handlers read and write the relational store. -/
structure ToolSpecE where
  name : String
  description : String
  schema_ : List (String × FieldSpec)
  handler : List (String × JValue) → Db → Except DbErr JValue × Db

/-- The module-level `_REGISTRY` mapping tool names to their specs, in
registration order. -/
abbrev Registry := List (String × ToolSpecE)

/-- Embedding of `ToolSpec.__init__`: raise on a duplicate name before the
registry is touched, otherwise append the binding.  The second component
carries the raised message, `None` on success. -/
def registerTool (reg : Registry) (t : ToolSpecE) : Registry × Option String :=
  if (reg.lookup t.name).isSome then
    (reg, some ("Duplicate tool name: " ++ t.name))
  else
    (reg ++ [(t.name, t)], none)

/-- The post-validation half of `ToolSpec.run`: invoke the handler on the
validated mapping, wrapping a handler-raised error. -/
def ToolSpecE.execValidated (t : ToolSpecE) (validated : List (String × JValue))
    (db : Db) : Except ToolErr JValue × Db :=
  match t.handler validated db with
  | (.ok v, db') => (.ok v, db')
  | (.error e, db') => (.error (.execution e), db')

/-- Embedding of `ToolSpec.run`: validate, then execute. -/
def ToolSpecE.run (t : ToolSpecE) (raw : List (String × JValue)) (db : Db) :
    Except ToolErr JValue × Db :=
  match validateArgs t.schema_ raw with
  | .error m => (.error (.validation m), db)
  | .ok validated => t.execValidated validated db

/-- The `function` sub-dict of a tool call, and equally an OpenAI-style
`function_call`: a name and optional raw arguments. -/
structure FnCall where
  name : String
  arguments : Option RawArgs

/-- One entry of a `tool_calls` list, as the dict the loop works with:
`id`, a direct `name` with `arguments`, or a nested `function`. -/
structure ToolCallD where
  id : Option String
  name : Option String
  function : Option FnCall
  arguments : Option RawArgs

/-- Name and raw-argument extraction of `_dispatch_tool`: prefer the
top-level `name` key (arguments defaulting to the empty mapping), fall back
to `function.name`, and fail on neither. -/
def extractNameArgs (tc : ToolCallD) : Option (String × RawArgs) :=
  match tc.name with
  | some n => some (n, tc.arguments.getD (.obj []))
  | none =>
    match tc.function with
    | some f => some (f.name, f.arguments.getD (.obj []))
    | none => none

/-- Embedding of `_dispatch_tool`, parameterised by the model of
`json.loads` restricted to objects (`parse s = none` when the string is not
valid JSON).  A string argument that is empty or unparsable silently
becomes the empty mapping; there is no parse-error outcome, exactly as in
the source.  The named spec then validates and runs. -/
def dispatchTool (parse : String → Option (List (String × JValue)))
    (reg : Registry) (tc : ToolCallD) (db : Db) : Except ToolErr JValue × Db :=
  match extractNameArgs tc with
  | none => (.error .malformed, db)
  | some (name, rawArgs) =>
    let args : List (String × JValue) :=
      match rawArgs with
      | .str s => if s = "" then [] else (parse s).getD []
      | .obj m => m
    match reg.lookup name with
    | none => (.error (.unknownTool name), db)
    | some spec => spec.run args db

/-- LangChain messages as the loop sees them: system, human, model
(with the `additional_kwargs` tool-request fields) and tool results
(content plus `tool_call_id`). -/
inductive LMsg where
  | system (content : String)
  | human (content : String)
  | ai (content : String) (functionCall : Option FnCall) (toolCalls : List ToolCallD)
  | tool (content : String) (toolCallId : String)

/-- The `function_call` entry of `additional_kwargs` (absent on non-model
messages). -/
def LMsg.functionCall : LMsg → Option FnCall
  | .ai _ fc _ => fc
  | _ => none

/-- The `tool_calls` entry of `additional_kwargs` (empty on non-model
messages). -/
def LMsg.toolCalls : LMsg → List ToolCallD
  | .ai _ _ tcs => tcs
  | _ => []

/-- Message content. -/
def LMsg.content : LMsg → String
  | .system c => c
  | .human c => c
  | .ai c _ _ => c
  | .tool c _ => c

/-- Whether the message is a ToolMessage. -/
def LMsg.isToolMsg : LMsg → Bool
  | .tool _ _ => true
  | _ => false

/-- The mutating tool names blocked in read-only mode (`MUTATIVE` in
`tool_node`). -/
def MUTATIVE : List String :=
  ["create_table", "add_column", "drop_table", "drop_column", "rename_column",
   "insert_rows", "update_rows", "delete_rows", "update", "delete", "insert"]

/-- The calls `tool_node` iterates over: a single synthesized call when the
newest message carries an OpenAI-style `function_call` (its id freshly
generated, its string arguments parsed with the empty mapping as the
fallback), otherwise the legacy `tool_calls` list as is. -/
def toolNodeCalls (last : LMsg) (freshId : String)
    (parse : String → Option (List (String × JValue))) : List ToolCallD :=
  match last.functionCall with
  | some fc =>
    let argsStr := fc.arguments.getD (.str "\x7b\x7d")
    let args : List (String × JValue) :=
      match argsStr with
      | .str s => (parse s).getD []
      | .obj m => m
    [⟨some freshId, some fc.name, none, some (.obj args)⟩]
  | none => last.toolCalls

mutual

/-- Rendering of a tool result into the ToolMessage content
(`str(result)`); the exact text is immaterial to the verified properties,
except that it never starts with the error marker for the dict and list
results the tools return. -/
def jStr : JValue → String
  | .str s => s
  | .int n => toString n
  | .bool true => "True"
  | .bool false => "False"
  | .null => "None"
  | .arr xs => "[" ++ jStrList xs ++ "]"
  | .obj kvs => "\x7b" ++ jStrObj kvs ++ "\x7d"

/-- Comma-separated rendering of a result list. -/
def jStrList : List JValue → String
  | [] => ""
  | [x] => jStr x
  | x :: y :: xs => jStr x ++ ", " ++ jStrList (y :: xs)

/-- Comma-separated rendering of a result dict. -/
def jStrObj : List (String × JValue) → String
  | [] => ""
  | [kv] => kv.1 ++ ": " ++ jStr kv.2
  | kv :: kv2 :: kvs => kv.1 ++ ": " ++ jStr kv.2 ++ ", " ++ jStrObj (kv2 :: kvs)

end

/-- Rendering of a translator error (`str(exc)`). -/
def dbErrMsg : DbErr → String
  | .tableNotFound t => "table_not_found:" ++ t
  | .noSuchColumn c => "no such column " ++ c
  | .valueError m => m
  | .attrError m => m

/-- Rendering of a dispatch error (`str(exc)`). -/
def toolErrMsg : ToolErr → String
  | .malformed => "Malformed tool_call: missing name or function.name"
  | .unknownTool n => "Unknown tool: " ++ n
  | .validation m => m
  | .execution e => dbErrMsg e

/-- The name `tool_node` derives for a call:
`call.get("name") or call.get("function", \x7b\x7d).get("name", "unknown")`. -/
def ToolCallD.callName (c : ToolCallD) : String :=
  pyOrStr c.name (match c.function with | some f => f.name | none => "unknown")

/-- Body of the per-call loop of `tool_node`: under read-only mode a
mutating tool name raises before anything is dispatched and is recorded as
an error-tagged ToolMessage; otherwise the call is dispatched and its
result (or error) is recorded, the ToolMessage tagged with
`call_id or call_name`. -/
def processToolCall (dispatch : ToolCallD → Db → Except ToolErr JValue × Db)
    (readOnly : Bool) (db : Db) (call : ToolCallD) : LMsg × Db :=
  let callName := call.callName
  let tagId := pyOrStr call.id callName
  if readOnly && MUTATIVE.contains callName then
    (.tool "ERROR: read_only_violation: mutative tool not allowed" tagId, db)
  else
    match dispatch call db with
    | (.ok v, db') => (.tool (jStr v) tagId, db')
    | (.error e, db') => (.tool ("ERROR: " ++ toolErrMsg e) tagId, db')

/-- Embedding of `tool_node`: read the calls off the newest message,
process them strictly in order (later calls see the store as left by
earlier ones), and append one ToolMessage per call to the history. -/
def toolNode (dispatch : ToolCallD → Db → Except ToolErr JValue × Db)
    (parse : String → Option (List (String × JValue))) (freshId : String)
    (readOnly : Bool) (msgs : List LMsg) (db : Db) : List LMsg × Db :=
  let last := msgs.getLastD (.human "")
  let calls := toolNodeCalls last freshId parse
  let step := calls.foldl
    (fun acc c =>
      let r := processToolCall dispatch readOnly acc.2 c
      (acc.1 ++ [r.1], r.2))
    (([] : List LMsg), db)
  (msgs ++ step.1, step.2)

/-- The newest message (`state["messages"][-1]`). -/
def lastMsg (msgs : List LMsg) : LMsg := msgs.getLastD (.human "")

/-- The message before the newest (`state["messages"][-2]`). -/
def secondLast (msgs : List LMsg) : LMsg := msgs.dropLast.getLastD (.human "")

/-- Whether a message carries tool requests
(`ak.get("function_call") or ak.get("tool_calls")` truthiness). -/
def hasToolRequests (m : LMsg) : Bool :=
  m.functionCall.isSome || !m.toolCalls.isEmpty

/-- The error marker test of `_route`:
`str(content).lower().startswith("error")`. -/
def isErrorContent (s : String) : Bool :=
  decide ("error".data <+: (pyLower s).data)

/-- The two labels `_route` can return. -/
inductive RouteLabel where
  | tools
  | end_
deriving DecidableEq, Repr

/-- Embedding of `_route`: with tool requests on the newest message, stop
when the preceding message is an error-tagged tool result, else dispatch;
without tool requests the branch on a trailing error-tagged tool result and
the fallthrough both stop. -/
def route (msgs : List LMsg) : RouteLabel :=
  if hasToolRequests (lastMsg msgs) then
    if 2 ≤ msgs.length ∧ (secondLast msgs).isToolMsg ∧ isErrorContent (secondLast msgs).content then
      .end_
    else
      .tools
  else
    if (lastMsg msgs).isToolMsg ∧ isErrorContent (lastMsg msgs).content then
      .end_
    else
      .end_

/-- Outcome of (the rest of) a graph run: the final message history and
store, plus how many model invocations and tool dispatches happened. -/
structure RunOutcome where
  messages : List LMsg
  db : Db
  modelCalls : Nat
  dispatches : Nat

/-- The routing step taken after each model response, abstracted over the
continuation that re-enters the agent node: label `end` finishes with no
further model call and no further dispatch; label `tools` executes the tool
node (counting its calls as dispatches) and continues. -/
def afterModelStep (cont : List LMsg → Db → RunOutcome)
    (dispatch : ToolCallD → Db → Except ToolErr JValue × Db)
    (parse : String → Option (List (String × JValue))) (freshId : String)
    (readOnly : Bool) (msgs : List LMsg) (db : Db) : RunOutcome :=
  match route msgs with
  | .end_ => ⟨msgs, db, 0, 0⟩
  | .tools =>
    let calls := toolNodeCalls (lastMsg msgs) freshId parse
    let stepped := toolNode dispatch parse freshId readOnly msgs db
    let rest := cont stepped.1 stepped.2
    ⟨rest.messages, rest.db, rest.modelCalls, rest.dispatches + calls.length⟩

/-- Embedding of the compiled graph loop: enter at the agent node, invoke
the model, append its response, route, and on `tools` run the tool node and
re-enter the agent node.  The fuel bound models the recursion limit of the
graph engine; every terminating run is reproduced with enough fuel. -/
def runAgentLoop (model : List LMsg → LMsg)
    (dispatch : ToolCallD → Db → Except ToolErr JValue × Db)
    (parse : String → Option (List (String × JValue))) (freshId : Nat → String)
    (readOnly : Bool) : Nat → List LMsg → Db → RunOutcome
  | 0, msgs, db => ⟨msgs, db, 0, 0⟩
  | fuel + 1, msgs, db =>
    let msgs1 := msgs ++ [model msgs]
    let rest := afterModelStep (runAgentLoop model dispatch parse freshId readOnly fuel)
      dispatch parse (freshId fuel) readOnly msgs1 db
    ⟨rest.messages, rest.db, rest.modelCalls + 1, rest.dispatches⟩

/-- Python substring membership `needle in hay` (an infix of the character
sequence). -/
def strContains (hay needle : String) : Bool :=
  decide (needle.data <:+: hay.data)

/-- The analytic keyword vocabulary of the read-only heuristic. -/
def ANALYTIC_KEYWORDS : List String :=
  ["plot", "histogram", "chart", "graph", "show", "list", "count", "average",
   "sum", "top", "aggregate", "group", "describe", "time series"]

/-- The mutative keyword vocabulary of the read-only heuristic. -/
def MUTATIVE_KEYWORDS : List String :=
  ["insert", "create", "add", "update", "delete", "drop"]

/-- The read-only flag `chat` derives from the prompt: some analytic
keyword occurs and no mutative keyword does. -/
def chatReadOnly (prompt : String) : Bool :=
  let lower := pyLower prompt
  (ANALYTIC_KEYWORDS.any (fun k => strContains lower k)) &&
    !(MUTATIVE_KEYWORDS.any (fun k => strContains lower k))

/-- Rendering of a reflected column type (`str(col["type"])` on
PostgreSQL). -/
def typeStr : SaType → String
  | .integer => "INTEGER"
  | .text => "TEXT"
  | .varchar => "VARCHAR"
  | .float => "DOUBLE PRECISION"
  | .boolean => "BOOLEAN"
  | .datetime => "TIMESTAMP"
  | .date => "DATE"

/-- The schema context messages `chat` prepends: the first ten known table
names, and the tables having a DATE / TIMESTAMP-like column. -/
def schemaMsgs (db : Db) : List LMsg :=
  let tables := PostgresDBTool.listTables db
  let tableNames := String.intercalate ", " ((tables.take 10).map (·.1))
  let known : List LMsg :=
    if tableNames != "" then [.system ("Known tables: " ++ tableNames)] else []
  let dateTables := (db.tables.filter fun p =>
    p.2.cols.any fun c =>
      strContains (pyLower (typeStr c.type_)) "date" ||
        strContains (pyLower (typeStr c.type_)) "time").map (·.1)
  let dated : List LMsg :=
    if !dateTables.isEmpty then
      [.system ("Tables with DATE/TIMESTAMP columns: " ++ String.intercalate ", " dateTables)]
    else []
  known ++ dated

/-- The read-only notice appended when the heuristic fires. -/
def readOnlyNotice : String :=
  "Read-only mode: the user appears to want analytics/visualisation only. " ++
    "Do NOT call create_table, add_column, insert_rows, update, or delete. " ++
    "If no suitable data exists, reply politely that it is unavailable."

/-- The initial message list `chat` seeds the run with. -/
def chatInitialMsgs (db : Db) (prompt : String) : List LMsg :=
  let policy : List LMsg :=
    if chatReadOnly prompt then [.system readOnlyNotice] else []
  schemaMsgs db ++ policy ++ [.human prompt]

/-- Embedding of class `LangGraphAgent`: its only instance state is the
`_events` list, initialised empty in `__init__`. -/
structure LangGraphAgentE where
  events : List JValue

/-- A freshly constructed agent (`LangGraphAgent()`). -/
def LangGraphAgentE.new : LangGraphAgentE := ⟨[]⟩

/-- Embedding of `LangGraphAgent.chat`: build the schema and policy
messages, derive the read-only flag, run the workflow, and return the
content of the final message.  The method never assigns to `self._events`,
so the agent value comes back unchanged. -/
def LangGraphAgentE.chat (a : LangGraphAgentE) (model : List LMsg → LMsg)
    (dispatch : ToolCallD → Db → Except ToolErr JValue × Db)
    (parse : String → Option (List (String × JValue))) (freshId : Nat → String)
    (fuel : Nat) (db : Db) (prompt : String) : String × LangGraphAgentE :=
  let msgs := chatInitialMsgs db prompt
  let out := runAgentLoop model dispatch parse freshId (chatReadOnly prompt) fuel msgs db
  ((lastMsg out.messages).content, a)

/-- Columns of the demo table used by the concrete witnesses. -/
def demoCols : List ColumnDef :=
  [⟨"id", .integer, true, true, none⟩,
   ⟨"name", .varchar, false, true, none⟩,
   ⟨"qty", .integer, false, true, none⟩]

/-- Rows of the demo table (the fixture of the repository test suite). -/
def demoRows : List Row :=
  [[("id", .int 1), ("name", .str "Widget"), ("qty", .int 5)],
   [("id", .int 2), ("name", .str "Widget"), ("qty", .int 3)],
   [("id", .int 3), ("name", .str "Gadget"), ("qty", .int 2)]]

/-- The demo table state. -/
def demoTable : TableState := ⟨demoCols, demoRows, 4⟩

/-- A demo store with one table `items`. -/
def demoDb : Db := ⟨[("items", demoTable)]⟩

/-- The column definition `_create_table` builds when no columns were
given. -/
def idColumnDef : ColumnDef := ⟨"id", .integer, true, true, none⟩

/-- C7: a `create_table` payload with a table name and no columns (absent
or empty list), over a store in which the table is absent, creates the
table with exactly one column named id, that column is an auto-increment
primary key, and the returned value is the table name with the column list
`["id"]`. -/
theorem createTable_no_columns_makes_id (db : Db) (p : CreateTablePayload)
    (habs : db.find? p.table = none)
    (hcols : p.columns = none ∨ p.columns = some []) :
    PostgresDBTool.createTable db p =
      .ok (⟨p.table, ["id"]⟩,
        ⟨db.tables ++ [(p.table, ⟨[idColumnDef], [], 1⟩)]⟩) ∧
    (Db.mk (db.tables ++ [(p.table, ⟨[idColumnDef], [], 1⟩)])).find? p.table =
      some ⟨[idColumnDef], [], 1⟩ ∧
    idColumnDef.autoIncrement = true := by
  have hfind : db.tables.find? (fun q => q.1 == p.table) = none := by
    unfold Db.find? at habs
    exact Option.map_eq_none'.mp habs
  refine ⟨?_, ?_, by decide⟩
  · unfold PostgresDBTool.createTable
    rcases hcols with h | h <;>
    · simp [h, habs]
      rfl
  · unfold Db.find?
    rw [List.find?_append, hfind]
    simp

/-- Witness for C7 at a concrete input: creating `users` with no columns in
the empty store. -/
theorem createTable_no_columns_makes_id_witness :
    PostgresDBTool.createTable ⟨[]⟩ ⟨"users", none⟩ =
      .ok (⟨"users", ["id"]⟩, ⟨[("users", ⟨[idColumnDef], [], 1⟩)]⟩) ∧
    (Db.mk [("users", ⟨[idColumnDef], [], 1⟩)]).find? "users" =
      some ⟨[idColumnDef], [], 1⟩ ∧
    idColumnDef.autoIncrement = true :=
  createTable_no_columns_makes_id ⟨[]⟩ ⟨"users", none⟩ rfl (Or.inl rfl)

/-- The `list_tables` tool spec of `postgres_tools.py`: no arguments, the
handler returns every table with its row count. -/
def listTablesToolE : ToolSpecE :=
  ⟨"list_tables", "List all database tables with row counts.", [],
   fun _ db =>
     (.ok (JValue.arr ((PostgresDBTool.listTables db).map fun p =>
        .obj [("table", .str p.1), ("rows", .int p.2)])), db)⟩

/-- The registry after the `list_tables` registration. -/
def demoRegistry : Registry := [("list_tables", listTablesToolE)]

/-- A second, distinct spec reusing the `list_tables` name. -/
def dupListTablesTool : ToolSpecE :=
  ⟨"list_tables", "Duplicate registration.", [],
   fun _ db => (.ok .null, db)⟩

/-- C5: registering a tool under a name the registry already maps fails
with the duplicate-tool error, and the registry still maps the name to the
first spec afterwards. -/
theorem registerTool_duplicate_rejected (reg : Registry) (t1 t2 : ToolSpecE)
    (h : reg.lookup t2.name = some t1) :
    registerTool reg t2 = (reg, some ("Duplicate tool name: " ++ t2.name)) ∧
    (registerTool reg t2).1.lookup t2.name = some t1 := by
  unfold registerTool
  simp [h]

/-- Witness for C5 at a concrete input: re-registering `list_tables`. -/
theorem registerTool_duplicate_rejected_witness :
    registerTool demoRegistry dupListTablesTool =
      (demoRegistry, some ("Duplicate tool name: " ++ dupListTablesTool.name)) ∧
    (registerTool demoRegistry dupListTablesTool).1.lookup dupListTablesTool.name =
      some listTablesToolE :=
  registerTool_duplicate_rejected demoRegistry listTablesToolE dupListTablesTool rfl

/-- Looking a key up after the keyed map rewrite `Db.replace` performs
finds the new state, provided the key was present. -/
theorem find?_map_replace (l : List (String × TableState)) (t : String)
    (ts' : TableState)
    (h : (l.find? (fun q => q.1 == t)).isSome) :
    ((l.map (fun q => if q.1 == t then (q.1, ts') else q)).find?
      (fun q => q.1 == t)) = some (t, ts') := by
  induction l with
  | nil => simp at h
  | cons hd tl ih =>
    by_cases hh : hd.1 = t
    · subst hh
      simp
    · have hb : (hd.1 == t) = false := beq_false_of_ne hh
      rw [List.find?_cons_of_neg _ (by simp [hb])] at h
      have hmap : (hd :: tl).map (fun q => if q.1 == t then (q.1, ts') else q)
          = hd :: tl.map (fun q => if q.1 == t then (q.1, ts') else q) := by
        simp [hh]
      rw [hmap, List.find?_cons_of_neg _ (by simp [hb])]
      exact ih h

/-- Replacing the state of a present table makes the lookup read the new
state back. -/
theorem Db.find?_replace (db : Db) (t : String) (ts' : TableState)
    (h : (db.find? t).isSome) : (db.replace t ts').find? t = some ts' := by
  rcases db with ⟨l⟩
  have h' : (l.find? (fun q => q.1 == t)).isSome := by
    unfold Db.find? at h
    simpa using h
  unfold Db.find? Db.replace
  rw [find?_map_replace l t ts' h']
  rfl

/-- Writing the same table state twice is the same as writing it once. -/
theorem Db.replace_replace (db : Db) (t : String) (ts' : TableState) :
    (db.replace t ts').replace t ts' = db.replace t ts' := by
  rcases db with ⟨l⟩
  unfold Db.replace
  simp only [List.map_map, Db.mk.injEq]
  apply List.map_congr_left
  intro a _
  by_cases h : a.1 = t
  · simp [Function.comp_def, h]
  · simp [Function.comp_def, h]

/-- Filtering twice with one predicate filters once. -/
theorem filter_self_idem {α : Type} (p : α → Bool) (l : List α) :
    (l.filter p).filter p = l.filter p := by
  rw [List.filter_filter]
  simp

/-- C9: over a store holding the target table (and a valid column type for
the addition), `add_column` twice with the same arguments succeeds both
times and the second call returns the state of the first unchanged, and
`drop_column` twice with the same arguments does the same: both are
idempotent rather than failing on the repeat. -/
theorem addColumn_dropColumn_idempotent (db : Db) (p : AddColumnPayload)
    (q : DropColumnPayload) (ts ts2 : TableState) (ct : SaType)
    (hadd : db.find? p.table = some ts)
    (hsa : saType (addColTypeName p) = .ok ct)
    (hdrop : db.find? q.table = some ts2) :
    (∃ r db1, PostgresDBTool.addColumn db p = .ok (r, db1) ∧
      PostgresDBTool.addColumn db1 p = .ok (r, db1)) ∧
    (∃ r db1, PostgresDBTool.dropColumn db q = .ok (r, db1) ∧
      PostgresDBTool.dropColumn db1 q = .ok (r, db1)) := by
  constructor
  · by_cases hex : ts.cols.any (fun c => c.name == (resolveColSpec p).name)
    · refine ⟨⟨(resolveColSpec p).name, p.table⟩, db, ?_, ?_⟩ <;>
        simp [PostgresDBTool.addColumn, hsa, hadd, hex]
    · have hexf : ts.cols.any (fun c => c.name == (resolveColSpec p).name) = false :=
        Bool.not_eq_true _ ▸ eq_false_of_ne_true hex
      refine ⟨⟨(resolveColSpec p).name, p.table⟩,
        db.replace p.table
          ⟨ts.cols ++ [⟨(resolveColSpec p).name, ct, false, true, none⟩],
           ts.rows.map (· ++ [((resolveColSpec p).name, Value.null)]), ts.nextId⟩,
        ?_, ?_⟩
      · simp [PostgresDBTool.addColumn, hsa, hadd, hexf]
      · have h1 := Db.find?_replace db p.table
          ⟨ts.cols ++ [⟨(resolveColSpec p).name, ct, false, true, none⟩],
           ts.rows.map (· ++ [((resolveColSpec p).name, Value.null)]), ts.nextId⟩
          (by rw [hadd]; rfl)
        simp [PostgresDBTool.addColumn, hsa, h1]
  · refine ⟨⟨q.column, q.table⟩,
      db.replace q.table
        ⟨ts2.cols.filter (fun c => c.name != q.column),
         ts2.rows.map (fun r => r.filter (fun kv => kv.1 != q.column)), ts2.nextId⟩,
      ?_, ?_⟩
    · simp [PostgresDBTool.dropColumn, hdrop]
    · have h1 := Db.find?_replace db q.table
        ⟨ts2.cols.filter (fun c => c.name != q.column),
         ts2.rows.map (fun r => r.filter (fun kv => kv.1 != q.column)), ts2.nextId⟩
        (by rw [hdrop]; rfl)
      simp only [PostgresDBTool.dropColumn, h1]
      rw [filter_self_idem]
      have hrows :
          (ts2.rows.map (fun r => r.filter (fun kv => kv.1 != q.column))).map
            (fun r => r.filter (fun kv => kv.1 != q.column)) =
          ts2.rows.map (fun r => r.filter (fun kv => kv.1 != q.column)) := by
        rw [List.map_map]
        apply List.map_congr_left
        intro r _
        exact filter_self_idem _ r
      rw [hrows, Db.replace_replace]

/-- Witness for C9 at a concrete input: adding a text column `status` to
`items` twice, and dropping `qty` twice. -/
theorem addColumn_dropColumn_idempotent_witness :
    (∃ r db1,
      PostgresDBTool.addColumn demoDb ⟨"items", .shorthand "status", some "text"⟩ = .ok (r, db1) ∧
      PostgresDBTool.addColumn db1 ⟨"items", .shorthand "status", some "text"⟩ = .ok (r, db1)) ∧
    (∃ r db1,
      PostgresDBTool.dropColumn demoDb ⟨"items", "qty"⟩ = .ok (r, db1) ∧
      PostgresDBTool.dropColumn db1 ⟨"items", "qty"⟩ = .ok (r, db1)) :=
  addColumn_dropColumn_idempotent demoDb ⟨"items", .shorthand "status", some "text"⟩
    ⟨"items", "qty"⟩ demoTable demoTable SaType.text rfl rfl rfl

/-- An aggregate payload requesting the unsupported operation median over
the existing demo table. -/
def medianPayload : AggregatePayload :=
  ⟨"items", some "qty", none, some "median", none, []⟩

/-- C3 counterexample: at the concrete payload `operation="median"` over
the existing table `items`, `_aggregate` does fail with a ValueError, but
only after `_get_table` has already reflected the table against the store:
the access trace before the failure is not empty, refuting the claim that
no query or reflection is issued before the failure. -/
theorem aggregate_unknown_op_reflects_store :
    (PostgresDBTool.aggregate demoDb medianPayload).2 =
      .error (.valueError "Unsupported aggregate operation median") ∧
    (PostgresDBTool.aggregate demoDb medianPayload).1 = [DbEffect.reflect "items"] ∧
    (PostgresDBTool.aggregate demoDb medianPayload).1 ≠ [] := by
  refine ⟨rfl, rfl, ?_⟩
  intro hcontra
  rw [show (PostgresDBTool.aggregate demoDb medianPayload).1 =
    [DbEffect.reflect "items"] from rfl] at hcontra
  simp at hcontra

/-- C3 amended: an aggregate payload whose operation is outside
count/sum/avg/min/max, over an existing table and an existing column, fails
with a ValueError; the table reflection issued by `_get_table` does run
against the store before that failure, but the aggregate query itself is
never executed. -/
theorem aggregate_unknown_op_validation (db : Db) (p : AggregatePayload)
    (ts : TableState) (c : String)
    (ht : db.find? p.table = some ts)
    (hc : pyOrOptS p.column p.field = some c)
    (hcol : ts.cols.all (fun cd => cd.name != c) = false)
    (hop : AGG_OPS.contains (pyLower (pyOrStr (pyOrOptS p.operation p.agg) "count")) = false) :
    PostgresDBTool.aggregate db p =
      ([DbEffect.reflect p.table],
       .error (.valueError ("Unsupported aggregate operation " ++
         pyLower (pyOrStr (pyOrOptS p.operation p.agg) "count")))) ∧
    DbEffect.query ∉ (PostgresDBTool.aggregate db p).1 := by
  have hne : pyLower (pyOrStr (pyOrOptS p.operation p.agg) "count") ≠ "count" := by
    intro hcontra
    rw [hcontra] at hop
    simp [AGG_OPS] at hop
  have hop' : pyLower (pyOrStr (pyOrOptS p.operation p.agg) "count") ∉ AGG_OPS := by
    simpa using hop
  have hmain : PostgresDBTool.aggregate db p =
      ([DbEffect.reflect p.table],
       .error (.valueError ("Unsupported aggregate operation " ++
         pyLower (pyOrStr (pyOrOptS p.operation p.agg) "count")))) := by
    simp [PostgresDBTool.aggregate, ht, hc, hcol, hop', hne]
  refine ⟨hmain, ?_⟩
  rw [hmain]
  simp

/-- Witness for the amended C3 at a concrete input: the unsupported
operation stddev over `items.qty`. -/
theorem aggregate_unknown_op_validation_witness :
    PostgresDBTool.aggregate demoDb ⟨"items", some "qty", none, some "stddev", none, []⟩ =
      ([DbEffect.reflect "items"],
       .error (.valueError ("Unsupported aggregate operation " ++
         pyLower (pyOrStr (pyOrOptS (some "stddev") none) "count")))) ∧
    DbEffect.query ∉
      (PostgresDBTool.aggregate demoDb ⟨"items", some "qty", none, some "stddev", none, []⟩).1 :=
  aggregate_unknown_op_validation demoDb ⟨"items", some "qty", none, some "stddev", none, []⟩
    demoTable "qty" rfl rfl (by decide) (by decide)

/-- Validation of the empty raw mapping succeeds with the declared defaults
whenever no field is required. -/
theorem validateArgs_empty_of_no_required (sch : List (String × FieldSpec))
    (h : requiredNames sch = []) :
    validateArgs sch [] = .ok (defaultsOf sch) := by
  induction sch with
  | nil => rfl
  | cons hd tl ih =>
    have hhd : ¬hd.2.default.isNone := by
      intro hcontra
      have hmem : hd.1 ∈ requiredNames (hd :: tl) := by
        simp [requiredNames, List.filter_cons, hcontra]
      rw [h] at hmem
      simp at hmem
    obtain ⟨d, hd2⟩ : ∃ d, hd.2.default = some d := by
      cases hdefault : hd.2.default with
      | none => exact absurd (by simp [hdefault]) hhd
      | some d => exact ⟨d, rfl⟩
    have htl : requiredNames tl = [] := by
      have heq : requiredNames (hd :: tl) = requiredNames tl := by
        simp [requiredNames, List.filter_cons, hd2]
      rw [← heq, h]
    have ih' := ih htl
    simp only [validateArgs, List.lookup] at ih'
    simp only [validateArgs, List.mapM_cons, List.lookup, hd2, defaultsOf, List.map_cons]
    rw [ih']
    rfl

/-- C10: when a tool call carries string arguments that do not parse as
JSON, `_dispatch_tool` surfaces no parse error: the call runs exactly as a
call with the empty argument mapping, so it reaches schema validation and,
when the named tool declares no required argument, the handler is executed
on the declared defaults. -/
theorem dispatchTool_bad_json_empty_args
    (parse : String → Option (List (String × JValue))) (reg : Registry)
    (tc : ToolCallD) (db : Db) (n s : String) (spec : ToolSpecE)
    (hx : extractNameArgs tc = some (n, .str s))
    (hbad : parse s = none)
    (hreg : reg.lookup n = some spec) :
    dispatchTool parse reg tc db = spec.run [] db ∧
    (requiredNames spec.schema_ = [] →
      dispatchTool parse reg tc db = spec.execValidated (defaultsOf spec.schema_) db) := by
  have hmain : dispatchTool parse reg tc db = spec.run [] db := by
    unfold dispatchTool
    rw [hx]
    by_cases hs : s = ""
    · simp [hs, hreg]
    · simp [hs, hbad, hreg]
  refine ⟨hmain, fun hnr => ?_⟩
  rw [hmain]
  unfold ToolSpecE.run
  rw [validateArgs_empty_of_no_required spec.schema_ hnr]

/-- Witness for C10 at a concrete input: calling `list_tables` (which has
no required argument) with the unparsable argument string `not json`. -/
theorem dispatchTool_bad_json_empty_args_witness :
    dispatchTool (fun _ => none) demoRegistry
        ⟨some "id1", some "list_tables", none, some (.str "not json")⟩ demoDb =
      listTablesToolE.run [] demoDb ∧
    (requiredNames listTablesToolE.schema_ = [] →
      dispatchTool (fun _ => none) demoRegistry
          ⟨some "id1", some "list_tables", none, some (.str "not json")⟩ demoDb =
        listTablesToolE.execValidated (defaultsOf listTablesToolE.schema_) demoDb) :=
  dispatchTool_bad_json_empty_args (fun _ => none) demoRegistry
    ⟨some "id1", some "list_tables", none, some (.str "not json")⟩ demoDb
    "list_tables" "not json" listTablesToolE rfl rfl rfl

/-- C1: in read-only mode, a tool call whose derived name is in the
mutating set is answered by an error-tagged tool-result message, the
dispatcher is never consulted (the step is the same for every dispatch
function), and the backing store is unchanged by that call; a conversation
state whose newest model message carries such a call gets exactly that
message appended by the tool node. -/
theorem readOnly_blocks_mutating
    (d d' : ToolCallD → Db → Except ToolErr JValue × Db) (db : Db)
    (call : ToolCallD) (hm : MUTATIVE.contains call.callName = true) :
    processToolCall d true db call = processToolCall d' true db call ∧
    (processToolCall d true db call).2 = db ∧
    (processToolCall d true db call).1 =
      .tool "ERROR: read_only_violation: mutative tool not allowed"
        (pyOrStr call.id call.callName) ∧
    isErrorContent (processToolCall d true db call).1.content = true ∧
    ∀ (ms : List LMsg) (c fid : String)
      (parse : String → Option (List (String × JValue))),
      toolNode d parse fid true (ms ++ [LMsg.ai c none [call]]) db =
        (ms ++ [LMsg.ai c none [call]] ++
          [.tool "ERROR: read_only_violation: mutative tool not allowed"
            (pyOrStr call.id call.callName)], db) := by
  have hstep : ∀ (f : ToolCallD → Db → Except ToolErr JValue × Db),
      processToolCall f true db call =
        (.tool "ERROR: read_only_violation: mutative tool not allowed"
          (pyOrStr call.id call.callName), db) := by
    intro f
    have hm' : call.callName ∈ MUTATIVE := by simpa using hm
    simp [processToolCall, hm']
  refine ⟨by rw [hstep d, hstep d'], by rw [hstep d], by rw [hstep d], ?_, ?_⟩
  · rw [hstep d]
    rfl
  · intro ms c fid parse
    simp only [toolNode, List.getLastD_concat, toolNodeCalls, LMsg.functionCall,
      LMsg.toolCalls, List.foldl_cons, List.foldl_nil, hstep d, List.nil_append,
      List.append_assoc]

/-- Witness for C1 at a concrete input: a read-only turn requesting
`insert_rows`. -/
theorem readOnly_blocks_mutating_witness :
    (processToolCall (fun _ db => (.ok .null, db)) true demoDb
        ⟨some "id9", some "insert_rows", none, some (.obj [])⟩ =
      processToolCall (fun _ db => (.error .malformed, db)) true demoDb
        ⟨some "id9", some "insert_rows", none, some (.obj [])⟩) ∧
    (processToolCall (fun _ db => (.ok .null, db)) true demoDb
        ⟨some "id9", some "insert_rows", none, some (.obj [])⟩).2 = demoDb ∧
    (processToolCall (fun _ db => (.ok .null, db)) true demoDb
        ⟨some "id9", some "insert_rows", none, some (.obj [])⟩).1 =
      .tool "ERROR: read_only_violation: mutative tool not allowed"
        (pyOrStr (some "id9") (ToolCallD.callName ⟨some "id9", some "insert_rows", none, some (.obj [])⟩)) ∧
    isErrorContent (processToolCall (fun _ db => (.ok .null, db)) true demoDb
        ⟨some "id9", some "insert_rows", none, some (.obj [])⟩).1.content = true ∧
    ∀ (ms : List LMsg) (c fid : String)
      (parse : String → Option (List (String × JValue))),
      toolNode (fun _ db => (.ok .null, db)) parse fid true
          (ms ++ [LMsg.ai c none [⟨some "id9", some "insert_rows", none, some (.obj [])⟩]]) demoDb =
        (ms ++ [LMsg.ai c none [⟨some "id9", some "insert_rows", none, some (.obj [])⟩]] ++
          [.tool "ERROR: read_only_violation: mutative tool not allowed"
            (pyOrStr (some "id9")
              (ToolCallD.callName ⟨some "id9", some "insert_rows", none, some (.obj [])⟩))], demoDb) :=
  readOnly_blocks_mutating (fun _ db => (.ok .null, db))
    (fun _ db => (.error .malformed, db)) demoDb
    ⟨some "id9", some "insert_rows", none, some (.obj [])⟩ rfl

/-- C2: whenever the newest message carries tool requests and the message
before it is a tool result whose content starts with the error marker, the
router yields the terminal label, and the post-model routing step returns
the state unchanged with zero further model calls and zero further
dispatches, whatever the loop continuation, dispatcher and parser are. -/
theorem route_error_stop (msgs : List LMsg)
    (hreq : hasToolRequests (lastMsg msgs) = true)
    (hlen : 2 ≤ msgs.length)
    (htool : (secondLast msgs).isToolMsg = true)
    (herr : isErrorContent (secondLast msgs).content = true) :
    route msgs = .end_ ∧
    ∀ (cont : List LMsg → Db → RunOutcome)
      (dispatch : ToolCallD → Db → Except ToolErr JValue × Db)
      (parse : String → Option (List (String × JValue))) (freshId : String)
      (readOnly : Bool) (db : Db),
      afterModelStep cont dispatch parse freshId readOnly msgs db =
        ⟨msgs, db, 0, 0⟩ := by
  have hroute : route msgs = .end_ := by
    simp [route, hreq, hlen, htool, herr]
  refine ⟨hroute, ?_⟩
  intro cont dispatch parse freshId readOnly db
  simp [afterModelStep, hroute]

/-- Witness for C2 at a concrete input: an error-tagged tool result
followed by a model message repeating a tool call. -/
theorem route_error_stop_witness :
    route [.tool "ERROR: boom" "c1", .ai "" none [⟨some "c2", some "select_rows", none, some (.obj [])⟩]] = .end_ ∧
    ∀ (cont : List LMsg → Db → RunOutcome)
      (dispatch : ToolCallD → Db → Except ToolErr JValue × Db)
      (parse : String → Option (List (String × JValue))) (freshId : String)
      (readOnly : Bool) (db : Db),
      afterModelStep cont dispatch parse freshId readOnly
          [.tool "ERROR: boom" "c1", .ai "" none [⟨some "c2", some "select_rows", none, some (.obj [])⟩]] db =
        ⟨[.tool "ERROR: boom" "c1", .ai "" none [⟨some "c2", some "select_rows", none, some (.obj [])⟩]], db, 0, 0⟩ :=
  route_error_stop
    [.tool "ERROR: boom" "c1", .ai "" none [⟨some "c2", some "select_rows", none, some (.obj [])⟩]]
    rfl (by simp) rfl rfl

/-- A parse model for runs whose calls carry structured arguments only. -/
def demoParse : String → Option (List (String × JValue)) := fun _ => none

/-- Fresh correlation ids for synthesized calls. -/
def demoFreshId : Nat → String := fun n => "call-" ++ toString n

/-- A deterministic model: request `list_tables` once, then answer `done`
after seeing the tool result. -/
def demoModel : List LMsg → LMsg := fun msgs =>
  if (lastMsg msgs).isToolMsg then .ai "done" none []
  else .ai "" none [⟨some "c1", some "list_tables", none, some (.obj [])⟩]

/-- C4 (code bug): `LangGraphAgent.chat` never writes `self._events`, so
the agent comes back from every chat turn unchanged, and in a concrete turn
that dispatches exactly one tool call the `events` accessor still returns
the empty list instead of one entry per dispatched call. -/
theorem langGraphAgent_events_stay_empty :
    (∀ (a : LangGraphAgentE) (model : List LMsg → LMsg)
      (dispatch : ToolCallD → Db → Except ToolErr JValue × Db)
      (parse : String → Option (List (String × JValue)))
      (freshId : Nat → String) (fuel : Nat) (db : Db) (prompt : String),
      (LangGraphAgentE.chat a model dispatch parse freshId fuel db prompt).2 = a) ∧
    (runAgentLoop demoModel (dispatchTool demoParse demoRegistry) demoParse
        demoFreshId (chatReadOnly "show the tables") 5
        (chatInitialMsgs demoDb "show the tables") demoDb).dispatches = 1 ∧
    (LangGraphAgentE.new.chat demoModel (dispatchTool demoParse demoRegistry)
        demoParse demoFreshId 5 demoDb "show the tables").2.events = [] := by
  refine ⟨fun a _ _ _ _ _ _ _ => rfl, ?_, rfl⟩
  rfl

/-- Folding the count sum from any seed adds the mapped sum. -/
theorem foldl_add_counts (l : List (Value × Nat)) (a : Nat) :
    l.foldl (fun acc g => acc + g.2) a = a + (l.map (·.2)).sum := by
  induction l generalizing a with
  | nil => simp
  | cons hd tl ih => simp [List.foldl_cons, ih, Nat.add_assoc]

/-- Bumping a group raises the total count by exactly one. -/
theorem bumpCount_sum (v : Value) (l : List (Value × Nat)) :
    ((bumpCount v l).map (·.2)).sum = (l.map (·.2)).sum + 1 := by
  induction l with
  | nil => simp [bumpCount]
  | cons hd tl ih =>
    obtain ⟨w, n⟩ := hd
    by_cases h : w == v
    · simp [bumpCount, h]
      omega
    · have hb : (w == v) = false := by simpa using h
      simp [bumpCount, hb, ih]
      omega

/-- The group counts of a column add up to the number of rows. -/
theorem groupCounts_sum (c : String) (rows : List Row) :
    ((groupCounts c rows).map (·.2)).sum = rows.length := by
  suffices h : ∀ acc : List (Value × Nat),
      (((rows.foldl (fun acc r => bumpCount ((r.lookup c).getD .null) acc) acc)).map (·.2)).sum =
        (acc.map (·.2)).sum + rows.length by
    simpa [groupCounts] using h []
  induction rows with
  | nil => intro acc; simp
  | cons hd tl ih =>
    intro acc
    simp only [List.foldl_cons, List.length_cons]
    rw [ih, bumpCount_sum]
    omega

instance : IsTotal (Value × Nat) countDescRel :=
  ⟨fun a b => le_total b.2 a.2⟩

instance : IsTrans (Value × Nat) countDescRel :=
  ⟨fun _ _ _ h1 h2 => le_trans h2 h1⟩

/-- A Python slice of a list is one of its sublists. -/
theorem pySlice_sublist {α : Type} (l : List α) (n : Int) :
    (pySlice l n).Sublist l := by
  unfold pySlice
  split <;> exact List.take_sublist _ _

/-- C6: over an existing table and column, `group_by` returns the groups of
the column sorted by descending count and truncated to the first `top_n`;
`total` sums the counts of all groups (equivalently, the number of stored
rows, not only the listed groups); every listed row is a real group with
its count; and `percent` is `round(count / total * 100, 2)` exactly when
percentages were requested and the total is nonzero, and is omitted
otherwise. -/
theorem groupBy_sorted_truncated_total (db : Db) (p : GroupByPayload)
    (ts : TableState)
    (ht : db.find? p.table = some ts)
    (hcol : ts.cols.all (fun cd => cd.name != p.column) = false)
    (htop : 0 ≤ p.top_n.getD 10) :
    ∃ res, PostgresDBTool.groupBy db p = .ok res ∧
      List.Sorted (fun a b : GroupRow => b.count ≤ a.count) res.rows ∧
      res.rows.length =
        min (p.top_n.getD 10).toNat (groupCounts p.column ts.rows).length ∧
      res.total = ((groupCounts p.column ts.rows).map (·.2)).sum ∧
      res.total = ts.rows.length ∧
      (∀ r ∈ res.rows, (r.value, r.count) ∈ groupCounts p.column ts.rows) ∧
      (∀ r ∈ res.rows, r.percent =
        if p.percent.getD true && res.total != 0 then
          some (round2 ((r.count : Rat) / (res.total : Rat) * 100))
        else none) := by
  set gc := groupCounts p.column ts.rows with hgc
  set total := gc.foldl (fun acc g => acc + g.2) 0 with htotaldef
  set listed := pySlice (gc.insertionSort countDescRel) (p.top_n.getD 10) with hlisted
  have htotal0 : total = (gc.map (·.2)).sum := by
    rw [htotaldef, foldl_add_counts]
    omega
  refine ⟨⟨p.table, p.column,
    listed.map (fun g =>
      ⟨g.1, g.2,
        if p.percent.getD true && total != 0 then
          some (round2 ((g.2 : Rat) / (total : Rat) * 100))
        else none⟩),
    total⟩, ?_, ?_, ?_, ?_, ?_, ?_, ?_⟩
  · unfold PostgresDBTool.groupBy
    rw [ht]
    simp only [hcol]
    rfl
  · have hsorted : List.Sorted countDescRel (gc.insertionSort countDescRel) :=
      List.sorted_insertionSort countDescRel _
    have hslice : List.Sorted countDescRel listed :=
      hsorted.sublist (pySlice_sublist _ _)
    exact List.pairwise_map.mpr hslice
  · rw [List.length_map, hlisted]
    unfold pySlice
    rw [if_pos htop, List.length_take,
      (List.perm_insertionSort countDescRel _).length_eq]
  · exact htotal0
  · rw [htotal0, hgc, groupCounts_sum]
  · intro r hr
    obtain ⟨g, hg, hgr⟩ := List.mem_map.mp hr
    have hg1 : g ∈ gc.insertionSort countDescRel :=
      (pySlice_sublist _ _).mem hg
    have hg2 : g ∈ gc :=
      ((List.perm_insertionSort countDescRel _).mem_iff).mp hg1
    rw [← hgr]
    exact hg2
  · intro r hr
    obtain ⟨g, hg, hgr⟩ := List.mem_map.mp hr
    rw [← hgr]

/-- Witness for C6 at a concrete input: grouping `items` by `name` with
`top_n = 2` (the Widget/Widget/Gadget fixture). -/
theorem groupBy_sorted_truncated_total_witness :
    ∃ res, PostgresDBTool.groupBy demoDb ⟨"items", "name", some 2, none⟩ = .ok res ∧
      List.Sorted (fun a b : GroupRow => b.count ≤ a.count) res.rows ∧
      res.rows.length =
        min ((some (2 : Int)).getD 10).toNat (groupCounts "name" demoTable.rows).length ∧
      res.total = ((groupCounts "name" demoTable.rows).map (·.2)).sum ∧
      res.total = demoTable.rows.length ∧
      (∀ r ∈ res.rows, (r.value, r.count) ∈ groupCounts "name" demoTable.rows) ∧
      (∀ r ∈ res.rows, r.percent =
        if (none : Option Bool).getD true && res.total != 0 then
          some (round2 ((r.count : Rat) / (res.total : Rat) * 100))
        else none) :=
  groupBy_sorted_truncated_total demoDb ⟨"items", "name", some 2, none⟩ demoTable
    rfl (by decide) (by decide)

/-- A keyed lookup in a duplicate-free association list finds exactly the
member pair. -/
theorem lookup_of_mem_nodup {β : Type} (l : List (String × β)) (k : String)
    (val : β) (hm : (k, val) ∈ l) (hn : (l.map Prod.fst).Nodup) :
    l.lookup k = some val := by
  induction l with
  | nil => simp at hm
  | cons hd tl ih =>
    obtain ⟨w, x⟩ := hd
    rcases List.mem_cons.mp hm with h | h
    · injection h with h1 h2
      subst h1
      subst h2
      simp [List.lookup]
    · have hk : k ∈ tl.map Prod.fst := List.mem_map.mpr ⟨(k, val), h, rfl⟩
      have hn' : (w :: tl.map Prod.fst).Nodup := by simpa using hn
      have hne : w ≠ k := fun hcontra => (List.nodup_cons.mp hn').1 (hcontra ▸ hk)
      have hb : (k == w) = false := beq_false_of_ne (fun hkk => hne hkk.symm)
      simp only [List.lookup, hb]
      exact ih h (List.nodup_cons.mp hn').2

/-- The stored insert row reads back the caller value of every column the
mapping filled. -/
theorem mkInsertRow_lookup (cols : List ColumnDef) (nid : Int)
    (m : List (String × Value)) (k : String) (val : Value)
    (hk : cols.any (fun c => c.name == k) = true)
    (hv : m.lookup k = some val) :
    (mkInsertRow cols nid m).lookup k = some val := by
  induction cols with
  | nil => simp at hk
  | cons c rest ih =>
    by_cases hc : c.name = k
    · subst hc
      simp only [mkInsertRow, List.map_cons, List.lookup, beq_self_eq_true, hv]
    · have hb : (k == c.name) = false := beq_false_of_ne (fun hkk => hc hkk.symm)
      have hk' : rest.any (fun cd => cd.name == k) = true := by
        rcases List.any_eq_true.mp hk with ⟨cd, hcd, hcdk⟩
        rcases List.mem_cons.mp hcd with heq | hmem
        · exfalso
          apply hc
          have hck : (c.name == k) = true := by rw [← heq]; exact hcdk
          simpa using hck
        · exact List.any_eq_true.mpr ⟨cd, hmem, hcdk⟩
      simpa only [mkInsertRow, List.map_cons, List.lookup, hb] using ih hk'

/-- SQL equality is reflexive away from NULL. -/
theorem sqlEq_self (x : Value) (hx : x ≠ Value.null) : sqlEq x x = true := by
  cases x
  case null => exact absurd rfl hx
  all_goals simp [sqlEq]

/-- C8: inserting a non-empty, NULL-free mapping whose keys are columns of
an existing table and then selecting from that table with the same mapping
as the equality filter returns a row carrying exactly the inserted values
on the inserted columns. -/
theorem insert_select_roundtrip (db : Db) (t : String) (ts : TableState)
    (v : List (String × Value))
    (ht : db.find? t = some ts)
    (hne : v ≠ [])
    (hkeys : ∀ kv ∈ v, ts.cols.any (fun c => c.name == kv.1) = true)
    (hnodup : (v.map Prod.fst).Nodup)
    (hnn : ∀ kv ∈ v, kv.2 ≠ Value.null) :
    ∃ db', PostgresDBTool.insert db ⟨t, some (.one v), none⟩ = .ok (⟨1⟩, db') ∧
      ∃ rows, PostgresDBTool.select db' ⟨some t, none, v, none, none⟩ = .ok rows ∧
        ∃ r ∈ rows, ∀ kv ∈ v, r.lookup kv.1 = some kv.2 := by
  have hvne : v.isEmpty = false := by
    cases v with
    | nil => exact absurd rfl hne
    | cons a l => rfl
  have hpred : ∀ kv ∈ v, (ts.cols.all (fun c => c.name != kv.1)) = false := by
    intro kv hkv
    rcases List.any_eq_true.mp (hkeys kv hkv) with ⟨c, hc, hck⟩
    apply Bool.eq_false_iff.mpr
    intro hall
    have hcc := List.all_eq_true.mp hall c hc
    simp only [bne_iff_ne, ne_eq] at hcc
    exact hcc (by simpa using hck)
  have hfind0 : v.find? (fun kv => ts.cols.all (fun c => c.name != kv.1)) = none :=
    List.find?_eq_none.mpr (fun x hx => by simp [hpred x hx])
  have hlook : ∀ kv ∈ v,
      (mkInsertRow ts.cols ts.nextId v).lookup kv.1 = some kv.2 := by
    intro kv hkv
    exact mkInsertRow_lookup ts.cols ts.nextId v kv.1 kv.2 (hkeys kv hkv)
      (lookup_of_mem_nodup v kv.1 kv.2 hkv hnodup)
  have hmatch : rowMatches v (mkInsertRow ts.cols ts.nextId v) = true := by
    apply List.all_eq_true.mpr
    intro kv hkv
    rw [hlook kv hkv]
    exact sqlEq_self kv.2 (hnn kv hkv)
  refine ⟨db.replace t
      ⟨ts.cols, ts.rows ++ [mkInsertRow ts.cols ts.nextId v],
        if usesSequence ts.cols v then ts.nextId + 1 else ts.nextId⟩, ?_, ?_⟩
  · simp [PostgresDBTool.insert, ht, pyOrIV, pyTruthyIV, hvne, insertOne, hfind0]
  · have hfind' : (db.replace t
        ⟨ts.cols, ts.rows ++ [mkInsertRow ts.cols ts.nextId v],
          if usesSequence ts.cols v then ts.nextId + 1 else ts.nextId⟩).find? t =
        some ⟨ts.cols, ts.rows ++ [mkInsertRow ts.cols ts.nextId v],
          if usesSequence ts.cols v then ts.nextId + 1 else ts.nextId⟩ :=
      Db.find?_replace db t _ (by rw [ht]; rfl)
    have hbad : badWhereCol ts.cols v = none := by
      unfold badWhereCol
      rw [hfind0]
      rfl
    refine ⟨(ts.rows ++ [mkInsertRow ts.cols ts.nextId v]).filter (rowMatches v),
      ?_, ?_⟩
    · simp [PostgresDBTool.select, hfind', hbad, applyLimitOffset]
    · refine ⟨mkInsertRow ts.cols ts.nextId v, ?_, hlook⟩
      exact List.mem_filter.mpr
        ⟨List.mem_append.mpr (Or.inr (List.mem_singleton.mpr rfl)), hmatch⟩

/-- Witness for C8 at a concrete input: inserting `name=Gizmo, qty=7` into
`items` and selecting it back with the same filter. -/
theorem insert_select_roundtrip_witness :
    ∃ db', PostgresDBTool.insert demoDb
        ⟨"items", some (.one [("name", .str "Gizmo"), ("qty", .int 7)]), none⟩ =
      .ok (⟨1⟩, db') ∧
      ∃ rows, PostgresDBTool.select db'
          ⟨some "items", none, [("name", .str "Gizmo"), ("qty", .int 7)], none, none⟩ =
        .ok rows ∧
        ∃ r ∈ rows, ∀ kv ∈ [(("name" : String), Value.str "Gizmo"), ("qty", .int 7)],
          r.lookup kv.1 = some kv.2 :=
  insert_select_roundtrip demoDb "items" demoTable
    [("name", .str "Gizmo"), ("qty", .int 7)] rfl (by simp) (by decide) (by decide)
    (by decide)
